import Mathlib

/-!
Verification of the resilient HTTP operation core of the `n8n-nodes-aem-ops`
repository: a shallow embedding in Lean 4 of its validation, retry/backoff,
redaction, HTTP-error classification, package-manager and batched
replication / cache-purge adapters, together with theorems settling the
frozen behavioural claims about them.

Modelling conventions:
* JavaScript numbers are modelled as `ℚ` (for delays/multipliers) or `Int`
  (for status codes); list indices and attempt counters are `ℕ`.
* Wall-clock reads (`Date.now()`, `new Date().toISOString()`) are modelled by
  the constants `modelNowMs` / `modelTimestamp`: no claim depends on time.
* `Promise` rejection is modelled by an explicit outcome datatype: the result
  of a network call is supplied by an "oracle" function, and every network
  call actually issued is recorded in an explicit trace (`NetCall`), so that
  "no network call is issued" is a statement about the trace.
* JavaScript `RegExp` is modelled by a small regular-expression engine
  (`Reg`, `compilePattern`, `regexTest`) covering the subset of syntax the
  repository uses (literals, escapes, `.`, postfix `*`, `^`/`$` anchors);
  `RegExp.prototype.test` searches for a match anywhere in the string, which
  `regexTest` reproduces.
-/

namespace AemOps

/-- Fixed timestamp standing for `new Date().toISOString()`; no claim depends
on wall-clock values. -/
def modelTimestamp : String := "1970-01-01T00:00:00.000Z"

/-- Fixed clock value standing for `Date.now()`. -/
def modelNowMs : Nat := 0

/-- Boolean "is `pre` a prefix of `l`" on character lists. -/
def listHasPref : List Char → List Char → Bool
  | [], _ => true
  | _ :: _, [] => false
  | a :: as, b :: bs => a == b && listHasPref as bs

/-- Boolean "does `sub` occur contiguously inside `l`" on character lists;
model of JavaScript `String.prototype.includes`. -/
def listHasSub (sub : List Char) : List Char → Bool
  | [] => listHasPref sub []
  | c :: rest => listHasPref sub (c :: rest) || listHasSub sub rest

/-- Model of JavaScript `haystack.includes(needle)`. -/
def strIncludes (haystack needle : String) : Bool :=
  listHasSub needle.toList haystack.toList

/-- Model of JavaScript `s.startsWith(pre)`. -/
def strStartsWith (s pre : String) : Bool :=
  listHasPref pre.toList s.toList

/-- Model of JavaScript `s.endsWith(suf)`. -/
def strEndsWith (s suf : String) : Bool :=
  listHasPref suf.toList.reverse s.toList.reverse

/-- Model of JavaScript `s.trim()`. -/
def jsTrim (s : String) : String :=
  String.mk
    (((s.toList.dropWhile Char.isWhitespace).reverse.dropWhile Char.isWhitespace).reverse)

/-- Lower-casing of a string, character by character (model of
`String.prototype.toLowerCase` on the ASCII data handled here). -/
def lowerStr (s : String) : String :=
  String.mk (s.toList.map Char.toLower)

/-- Digits-prefix value: `some n` when `cs` starts with at least one decimal
digit, reading the maximal digit run. -/
def leadingDigitsVal (cs : List Char) : Option Nat :=
  let ds := cs.takeWhile Char.isDigit
  if ds.isEmpty then none
  else some (ds.foldl (fun acc c => acc * 10 + (c.toNat - '0'.toNat)) 0)

/-- Model of JavaScript `parseInt(s, 10)`: optional leading whitespace, an
optional sign, then a maximal run of decimal digits; `none` models `NaN`. -/
def jsParseInt (s : String) : Option Int :=
  let cs := s.toList.dropWhile Char.isWhitespace
  match cs with
  | '-' :: rest => (leadingDigitsVal rest).map (fun n => -(n : Int))
  | '+' :: rest => (leadingDigitsVal rest).map (fun n => (n : Int))
  | rest => (leadingDigitsVal rest).map (fun n => (n : Int))

/-! ### Regular-expression engine

Model of the JavaScript `RegExp` subset used by this repository: literal
characters, `\`-escaped metacharacters, `.`, postfix `*`, and the `^` / `$`
anchors at the ends of the pattern.  Patterns outside this subset (or
patterns that JavaScript itself rejects, such as a dangling `*`) fail to
compile. -/

/-- Regular expressions over characters (anchor-free core). -/
inductive Reg : Type
  | empty : Reg
  | eps : Reg
  | chr : Char → Reg
  | dot : Reg
  | alt : Reg → Reg → Reg
  | seq : Reg → Reg → Reg
  | star : Reg → Reg
deriving Repr, DecidableEq

/-- Does the regular expression accept the empty string? -/
def Reg.nullable : Reg → Bool
  | .empty => false
  | .eps => true
  | .chr _ => false
  | .dot => false
  | .alt r1 r2 => r1.nullable || r2.nullable
  | .seq r1 r2 => r1.nullable && r2.nullable
  | .star _ => true

/-- Brzozowski derivative of a regular expression by one character.
JavaScript `.` matches any character except line terminators. -/
def Reg.deriv : Reg → Char → Reg
  | .empty, _ => .empty
  | .eps, _ => .empty
  | .chr c, a => if a == c then .eps else .empty
  | .dot, a => if a == '\n' || a == '\r' then .empty else .eps
  | .alt r1 r2, a => .alt (r1.deriv a) (r2.deriv a)
  | .seq r1 r2, a =>
      if r1.nullable then .alt (.seq (r1.deriv a) r2) (r2.deriv a)
      else .seq (r1.deriv a) r2
  | .star r, a => .seq (r.deriv a) (.star r)

/-- Does `r` match the whole character list? -/
def matchFull (r : Reg) (l : List Char) : Bool :=
  (l.foldl Reg.deriv r).nullable

/-- Does `r` match some prefix of the character list? -/
def matchPref (r : Reg) : List Char → Bool
  | [] => r.nullable
  | c :: rest => r.nullable || matchPref (r.deriv c) rest

/-- Does `r` match some suffix of the character list? -/
def matchSuffix (r : Reg) : List Char → Bool
  | [] => matchFull r []
  | c :: rest => matchFull r (c :: rest) || matchSuffix r rest

/-- Does `r` match some contiguous part of the character list? -/
def matchSub (r : Reg) : List Char → Bool
  | [] => matchPref r []
  | c :: rest => matchPref r (c :: rest) || matchSub r rest

/-- A compiled pattern: the optional `^` / `$` anchors and the anchor-free
core. -/
structure CompiledPattern : Type where
  anchorStart : Bool
  core : Reg
  anchorEnd : Bool
deriving Repr, DecidableEq

/-- Metacharacters of the modelled subset: unescaped occurrences (outside the
anchor positions) are not supported and make compilation fail, as do the
constructs JavaScript itself rejects (for example a quantifier with nothing
to repeat). -/
def isRegexMeta (c : Char) : Bool :=
  c == '*' || c == '+' || c == '?' || c == '(' || c == ')' ||
  c == '[' || c == ']' || c == '{' || c == '}' ||
  c == '|' || c == '^' || c == '$' || c == '\\'

/-- Characters that may follow a backslash and denote themselves. -/
def isRegexEscapable (c : Char) : Bool :=
  isRegexMeta c || c == '.' || c == '/'

/-- Parse the body of a pattern into a list of (possibly starred) atoms,
reporting whether it ends with the `$` anchor.  Fails on unsupported or
ill-formed syntax. -/
def parseAtoms : List Char → Option (List Reg × Bool)
  | [] => some ([], false)
  | ['$'] => some ([], true)
  | '\\' :: c :: '*' :: rest =>
      if isRegexEscapable c then
        (parseAtoms rest).map (fun p => (Reg.star (Reg.chr c) :: p.1, p.2))
      else none
  | ['\\', c] =>
      if isRegexEscapable c then some ([Reg.chr c], false) else none
  | '\\' :: c :: rest =>
      if isRegexEscapable c then
        (parseAtoms rest).map (fun p => (Reg.chr c :: p.1, p.2))
      else none
  | '.' :: '*' :: rest =>
      (parseAtoms rest).map (fun p => (Reg.star Reg.dot :: p.1, p.2))
  | '.' :: rest =>
      (parseAtoms rest).map (fun p => (Reg.dot :: p.1, p.2))
  | c :: '*' :: rest =>
      if isRegexMeta c then none
      else (parseAtoms rest).map (fun p => (Reg.star (Reg.chr c) :: p.1, p.2))
  | c :: rest =>
      if isRegexMeta c then none
      else (parseAtoms rest).map (fun p => (Reg.chr c :: p.1, p.2))

/-- Model of `new RegExp(pattern)` on the supported subset: strip a leading
`^`, parse the body, record a trailing `$`.  `none` models a pattern that
fails to compile. -/
def compilePattern (pattern : String) : Option CompiledPattern :=
  let cs := pattern.toList
  let startAnchored := listHasPref ['^'] cs
  let body := if startAnchored then cs.drop 1 else cs
  (parseAtoms body).map fun p =>
    { anchorStart := startAnchored
      core := p.1.foldr Reg.seq Reg.eps
      anchorEnd := p.2 }

/-- Model of `RegExp.prototype.test`: search for a match anywhere in the
string, with the anchors restricting where the match may start / end. -/
def regexTest (cp : CompiledPattern) (s : String) : Bool :=
  match cp.anchorStart, cp.anchorEnd with
  | true, true => matchFull cp.core s.toList
  | true, false => matchPref cp.core s.toList
  | false, true => matchSuffix cp.core s.toList
  | false, false => matchSub cp.core s.toList

/-! ### Validation (`src/core/validation.ts`) -/

/-- Error taxonomy of `src/core/types.ts` (`enum AemErrorCode`). -/
inductive AemErrorCode : Type
  | CONNECTION_FAILED
  | TIMEOUT
  | TLS_ERROR
  | AUTHENTICATION_FAILED
  | CSRF_TOKEN_FAILED
  | FORBIDDEN
  | REPLICATION_FAILED
  | PACKAGE_UPLOAD_FAILED
  | PACKAGE_INSTALL_FAILED
  | HEALTH_CHECK_FAILED
  | PURGE_FAILED
  | INVALID_PATH
  | INVALID_URL
  | ALLOWLIST_VIOLATION
  | NOT_IMPLEMENTED
deriving Repr, DecidableEq

/-- Structured error details (`interface AemErrorDetails`); the free-form
`context` record is modelled as a key-value list. -/
structure AemErrorDetails : Type where
  code : AemErrorCode
  message : String
  statusCode : Option Int := none
  url : Option String := none
  path : Option String := none
  context : List (String × String) := []
deriving Repr, DecidableEq

/-- Result of a validation check (`interface ValidationResult`). -/
structure ValidationResult : Type where
  valid : Bool
  error : Option AemErrorDetails := none
deriving Repr, DecidableEq

/-- `validateAemPath` of `src/core/validation.ts`.  The trailing
"common AEM path pattern" scan of the source is behaviourally inert (it
computes a flag and does nothing with it), so it contributes nothing here. -/
def validateAemPath (path : String) : ValidationResult :=
  if path = "" then
    { valid := false
      error := some { code := .INVALID_PATH
                      message := "Path must be a non-empty string"
                      path := some path } }
  else if !(strStartsWith path "/") then
    { valid := false
      error := some { code := .INVALID_PATH
                      message := "Path must start with /"
                      path := some path } }
  else if strIncludes path ".." then
    { valid := false
      error := some { code := .INVALID_PATH
                      message := "Path must not contain path traversal sequences (..)"
                      path := some path } }
  else if path.toList.any (fun c => decide (c.toNat ≤ 31 ∨ c.toNat = 127)) then
    { valid := false
      error := some { code := .INVALID_PATH
                      message := "Path must not contain control characters"
                      path := some path } }
  else { valid := true }

/-- The components of a parsed URL that the validators and redactors read. -/
structure ParsedUrl : Type where
  protocol : String
  username : String
  password : String
  hostname : String
deriving Repr, DecidableEq

/-- Characters allowed in a URL scheme after the leading letter. -/
def isSchemeChar (c : Char) : Bool :=
  c.isAlphanum || c == '+' || c == '-' || c == '.'

/-- Model of the WHATWG `new URL(u)` constructor, restricted to the absolute
URL shapes this repository handles: `scheme ':' '//' [user[':'pass]'@']
host[':'port][/path][?query][#hash]`, or a scheme followed by an opaque
path.  `none` models the constructor throwing.  (Userinfo is split at the
first `'@'`; the inputs in scope contain at most one.) -/
def parseUrl (s : String) : Option ParsedUrl :=
  let cs := s.toList
  let schemePart := cs.takeWhile (fun c => c != ':')
  let rest := cs.drop schemePart.length
  match schemePart, rest with
  | c0 :: schemeTail, ':' :: afterColon =>
      if c0.isAlpha && schemeTail.all isSchemeChar then
        match afterColon with
        | '/' :: '/' :: afterSlashes =>
            let authority :=
              afterSlashes.takeWhile (fun c => c != '/' && c != '?' && c != '#')
            let hasAt := authority.contains '@'
            let userinfo :=
              if hasAt then authority.takeWhile (fun c => c != '@') else []
            let hostport :=
              if hasAt then (authority.dropWhile (fun c => c != '@')).drop 1
              else authority
            let hostname := hostport.takeWhile (fun c => c != ':')
            if hostname.isEmpty then none
            else
              some { protocol := lowerStr (String.mk schemePart) ++ ":"
                     username := String.mk (userinfo.takeWhile (fun c => c != ':'))
                     password := String.mk ((userinfo.dropWhile (fun c => c != ':')).drop 1)
                     hostname := lowerStr (String.mk hostname) }
        | _ =>
            some { protocol := lowerStr (String.mk schemePart) ++ ":"
                   username := ""
                   password := ""
                   hostname := "" }
      else none
  | _, _ => none

/-- `validateUrl` of `src/core/validation.ts`; the `options` object defaults
to `requireHttps = false`, `allowLocalhost = true`. -/
def validateUrl (url : String) (requireHttps : Bool := false)
    (allowLocalhost : Bool := true) : ValidationResult :=
  if url = "" then
    { valid := false
      error := some { code := .INVALID_URL
                      message := "URL must be a non-empty string"
                      url := some url } }
  else
    match parseUrl url with
    | none =>
        { valid := false
          error := some { code := .INVALID_URL
                          message := "Invalid URL format"
                          url := some url } }
    | some parsed =>
        if !(parsed.protocol == "http:" || parsed.protocol == "https:") then
          { valid := false
            error := some { code := .INVALID_URL
                            message := "URL must use HTTP or HTTPS protocol"
                            url := some url } }
        else if requireHttps && parsed.protocol != "https:" then
          { valid := false
            error := some { code := .INVALID_URL
                            message := "URL must use HTTPS"
                            url := some url } }
        else
          let isLocalhost :=
            parsed.hostname == "localhost" || parsed.hostname == "127.0.0.1" ||
            parsed.hostname == "::1" || strEndsWith parsed.hostname ".localhost"
          if isLocalhost && !allowLocalhost then
            { valid := false
              error := some { code := .INVALID_URL
                              message := "Localhost URLs are not allowed"
                              url := some url } }
          else { valid := true }

/-- `validateUrlAgainstAllowlist` of `src/core/validation.ts`. -/
def validateUrlAgainstAllowlist (url allowlistPattern : String) : ValidationResult :=
  let urlValidation := validateUrl url
  if !urlValidation.valid then urlValidation
  else if allowlistPattern = "" || jsTrim allowlistPattern = "" then
    { valid := true }
  else
    match compilePattern allowlistPattern with
    | none =>
        { valid := false
          error := some { code := .INVALID_URL
                          message := "Invalid allowlist regex pattern: " ++ allowlistPattern
                          context := [("pattern", allowlistPattern)] } }
    | some regex =>
        if !(regexTest regex url) then
          { valid := false
            error := some { code := .ALLOWLIST_VIOLATION
                            message := "URL does not match allowlist pattern: " ++ allowlistPattern
                            url := some url
                            context := [("pattern", allowlistPattern)] } }
        else { valid := true }

/-! ### Retry / backoff (`src/core/retry.ts`) -/

/-- `interface RetryConfig`.  Numeric fields are modelled as `ℚ` (JavaScript
numbers); `maxRetries` and the attempt counter are natural numbers. -/
structure RetryConfig : Type where
  maxRetries : Nat
  initialDelayMs : ℚ
  maxDelayMs : ℚ
  backoffMultiplier : ℚ
  jitter : Bool
  retryableStatusCodes : List Int
  retryableErrorCodes : List String
deriving Repr, DecidableEq

/-- `DEFAULT_RETRY_CONFIG`. -/
def DEFAULT_RETRY_CONFIG : RetryConfig :=
  { maxRetries := 3
    initialDelayMs := 1000
    maxDelayMs := 30000
    backoffMultiplier := 2
    jitter := true
    retryableStatusCodes := [408, 429, 500, 502, 503, 504]
    retryableErrorCodes :=
      ["ECONNRESET", "ECONNREFUSED", "ETIMEDOUT", "ENOTFOUND",
       "EAI_AGAIN", "EPIPE", "EHOSTUNREACH", "ENETUNREACH"] }

/-- `interface RetryDecision`. -/
structure RetryDecision : Type where
  shouldRetry : Bool
  delayMs : Int
  reason : String
deriving Repr, DecidableEq

/-- `calculateBackoffDelay(attempt, config)`.  `rand` models the
`Math.random()` draw used when jitter is enabled (`0 ≤ rand < 1`);
`Math.floor` / `Math.max` become `Int.floor` / `max`. -/
def calculateBackoffDelay (attempt : Nat) (config : RetryConfig) (rand : ℚ) : Int :=
  let baseDelay := config.initialDelayMs * config.backoffMultiplier ^ attempt
  let cappedDelay := min baseDelay config.maxDelayMs
  if config.jitter then
    let jitterRange := cappedDelay * (1 / 4 : ℚ)
    let jitterDraw := (rand * 2 - 1) * jitterRange
    max 0 (Int.floor (cappedDelay + jitterDraw))
  else Int.floor cappedDelay

/-- `parseRetryAfterHeader(value)`.  The integer-seconds branch follows the
source through `jsParseInt`; the HTTP-date branch (`new Date(retryAfter)`) is
modelled as unparseable, since no claim depends on a delay computed from an
HTTP date. -/
def parseRetryAfterHeader (retryAfter : Option String) : Option Int :=
  match retryAfter with
  | none => none
  | some s =>
      if s = "" then none
      else
        match jsParseInt s with
        | some seconds => if 0 ≤ seconds then some (seconds * 1000) else none
        | none => none

/-- `isRetryableStatusCode(statusCode, config)`. -/
def isRetryableStatusCode (statusCode : Int) (config : RetryConfig) : Bool :=
  config.retryableStatusCodes.contains statusCode

/-- `isRetryableErrorCode(errorCode, config)`. -/
def isRetryableErrorCode (errorCode : String) (config : RetryConfig) : Bool :=
  config.retryableErrorCodes.contains errorCode

/-- The error value consumed by `shouldRetry` (`{statusCode?, code?,
message?}`). -/
structure ErrorInfo : Type where
  statusCode : Option Int := none
  code : Option String := none
  message : Option String := none
deriving Repr, DecidableEq

/-- Case-sensitive lookup in an optional header map
(`responseHeaders?.['retry-after']`). -/
def headerLookup (headers : Option (List (String × String))) (name : String) :
    Option String :=
  match headers with
  | none => none
  | some hs => (hs.find? (fun kv => kv.1 == name)).map (fun kv => kv.2)

/-- The truthiness-guarded status-code condition of `shouldRetry`
(`error.statusCode && isRetryableStatusCode(...)`, where a `0` status is
falsy). -/
def errStatusRetryable (error : ErrorInfo) (config : RetryConfig) : Bool :=
  match error.statusCode with
  | some sc => sc != 0 && isRetryableStatusCode sc config
  | none => false

/-- The truthiness-guarded error-code condition of `shouldRetry`
(`error.code && isRetryableErrorCode(...)`, where the empty string is
falsy). -/
def errCodeRetryable (error : ErrorInfo) (config : RetryConfig) : Bool :=
  match error.code with
  | some c => c != "" && isRetryableErrorCode c config
  | none => false

/-- `shouldRetry(error, attempt, config, responseHeaders)`; `rand` models the
`Math.random()` draw inside `calculateBackoffDelay`. -/
def shouldRetry (error : ErrorInfo) (attempt : Nat) (config : RetryConfig)
    (responseHeaders : Option (List (String × String))) (rand : ℚ) : RetryDecision :=
  if attempt ≥ config.maxRetries then
    { shouldRetry := false
      delayMs := 0
      reason := "Maximum retries (" ++ toString config.maxRetries ++ ") exceeded" }
  else if errStatusRetryable error config then
    let retryAfterDelay := parseRetryAfterHeader (headerLookup responseHeaders "retry-after")
    { shouldRetry := true
      delayMs := retryAfterDelay.getD (calculateBackoffDelay attempt config rand)
      reason := "Retryable status code: " ++ toString (error.statusCode.getD 0) }
  else if errCodeRetryable error config then
    { shouldRetry := true
      delayMs := calculateBackoffDelay attempt config rand
      reason := "Retryable error code: " ++ error.code.getD "" }
  else
    { shouldRetry := false
      delayMs := 0
      reason := "Error is not retryable" }

/-! ### Redaction (`src/core/redaction.ts`): the error-message path -/

/-- The redaction placeholder. -/
def REDACTED : String := "[REDACTED]"

/-- One element of a (deterministic, backtracking-free) textual pattern:
a case-insensitive literal, a one-or-more character class, or a zero-or-more
character class.  The regular expressions used by `redactErrorMessage` are
all of this shape, and for them greedy matching needs no backtracking
because each class excludes the character that follows it. -/
inductive PatElem : Type
  | litCI : List Char → PatElem
  | cls1 : (Char → Bool) → PatElem
  | cls0 : (Char → Bool) → PatElem

/-- Case-insensitive prefix comparison: `pat` (given lower-case) against the
start of `l`. -/
def lowerPrefixEq : List Char → List Char → Bool
  | [], _ => true
  | _ :: _, [] => false
  | a :: as, b :: bs => a == b.toLower && lowerPrefixEq as bs

/-- Match a pattern at the head of `l`, returning the remainder after the
match (greedy on classes). -/
def matchElems : List PatElem → List Char → Option (List Char)
  | [], l => some l
  | .litCI s :: ps, l =>
      if lowerPrefixEq s l then matchElems ps (l.drop s.length) else none
  | .cls1 f :: ps, l =>
      let tk := l.takeWhile f
      if tk.isEmpty then none else matchElems ps (l.drop tk.length)
  | .cls0 f :: ps, l => matchElems ps (l.drop (l.takeWhile f).length)

/-- Global replace of a pattern (model of `String.prototype.replace` with the
`g` flag): scan left to right, replacing each match and resuming after it.
`fuel` bounds the recursion (every match consumes at least one character, so
the input length suffices). -/
def replaceScanAux (ps : List PatElem) (repl : List Char) : Nat → List Char → List Char
  | _, [] => []
  | 0, l => l
  | Nat.succ fuel, c :: rest =>
      match matchElems ps (c :: rest) with
      | some rem =>
          if rem.length < rest.length + 1 then repl ++ replaceScanAux ps repl fuel rem
          else repl ++ c :: replaceScanAux ps repl fuel rest
      | none => c :: replaceScanAux ps repl fuel rest

/-- Global replace over a character list. -/
def replaceScan (ps : List PatElem) (repl : List Char) (l : List Char) : List Char :=
  replaceScanAux ps repl l.length l

/-- Base64 alphabet (`[A-Za-z0-9+/=]`). -/
def isB64Char (c : Char) : Bool :=
  c.isAlphanum || c == '+' || c == '/' || c == '='

/-- Bearer-token alphabet (`[A-Za-z0-9._-]`). -/
def isBearerTokChar (c : Char) : Bool :=
  c.isAlphanum || c == '.' || c == '_' || c == '-'

/-- `/Basic\s+[A-Za-z0-9+\/=]+/gi`. -/
def basicAuthPat : List PatElem :=
  [.litCI "basic".toList, .cls1 Char.isWhitespace, .cls1 isB64Char]

/-- `/Bearer\s+[A-Za-z0-9._-]+/gi`. -/
def bearerAuthPat : List PatElem :=
  [.litCI "bearer".toList, .cls1 Char.isWhitespace, .cls1 isBearerTokChar]

/-- `/"name"\s*:\s*"[^"]+"/gi` (the JSON-field patterns of
`redactErrorMessage`); `lowerName` is the field name in lower case. -/
def jsonFieldPat (lowerName : String) : List PatElem :=
  [.litCI ('"' :: lowerName.toList ++ ['"']), .cls0 Char.isWhitespace,
   .litCI [':'], .cls0 Char.isWhitespace, .litCI ['"'],
   .cls1 (fun c => c != '"'), .litCI ['"']]

/-- The replacement text `"name": "[REDACTED]"` with the source's casing of
the field name. -/
def jsonFieldRepl (displayName : String) : List Char :=
  ('"' :: displayName.toList ++ ['"']) ++ (": \"" ++ REDACTED ++ "\"").toList

/-- `redactErrorMessage(message)`: the six global substitutions of the
source, applied in order. -/
def redactErrorMessage (message : String) : String :=
  let r1 := replaceScan basicAuthPat ("Basic " ++ REDACTED).toList message.toList
  let r2 := replaceScan bearerAuthPat ("Bearer " ++ REDACTED).toList r1
  let r3 := replaceScan (jsonFieldPat "password") (jsonFieldRepl "password") r2
  let r4 := replaceScan (jsonFieldPat "token") (jsonFieldRepl "token") r3
  let r5 := replaceScan (jsonFieldPat "secret") (jsonFieldRepl "secret") r4
  let r6 := replaceScan (jsonFieldPat "apikey") (jsonFieldRepl "apiKey") r5
  String.mk r6

/-! ### HTTP error classification (`src/core/httpClient.ts`) -/

/-- Model of `JSON.stringify` on the string response bodies in scope: quote
and escape. -/
def jsonEscapeChar (c : Char) : List Char :=
  if c == '"' then ['\\', '"']
  else if c == '\\' then ['\\', '\\']
  else if c == '\n' then ['\\', 'n']
  else if c == '\r' then ['\\', 'r']
  else if c == '\t' then ['\\', 't']
  else [c]

/-- `JSON.stringify(body)` for a string body. -/
def jsonStringifyStr (s : String) : String :=
  String.mk ('"' :: (s.toList.map jsonEscapeChar).flatten ++ ['"'])

/-- The part of an HTTP response that the status check reads (response
bodies are modelled as raw strings; headers and latency carry no claim
content). -/
structure ModelHttpResponse : Type where
  statusCode : Int
  body : String
deriving Repr, DecidableEq

/-- Model of n8n's `NodeApiError` as produced by `createError`: the message,
the redacted diagnostic description, `httpCode` (a string), and the
`statusCode` property that `request` attaches after creation. -/
structure ModelNodeApiError : Type where
  message : String
  description : String
  httpCode : String
  statusCode : Option Int := none
deriving Repr, DecidableEq

/-- `AemHttpClient.getErrorDetails(statusCode, url, body)`.  The source first
computes `safeUrl = redactUrl(url)`; the URL redaction itself carries no
claim content, so the already-redacted URL is taken as the parameter here. -/
def getErrorDetails (statusCode : Int) (safeUrl : String) (body : String) :
    AemErrorDetails :=
  if statusCode = 401 then
    { code := .AUTHENTICATION_FAILED
      message := "Authentication failed. Check your credentials."
      statusCode := some statusCode
      url := some safeUrl }
  else if statusCode = 403 then
    { code := .FORBIDDEN
      message := "Access forbidden. Check user permissions."
      statusCode := some statusCode
      url := some safeUrl }
  else if statusCode = 404 then
    { code := .HEALTH_CHECK_FAILED
      message := "Resource not found. Check the URL or path."
      statusCode := some statusCode
      url := some safeUrl }
  else if statusCode = 500 ∨ statusCode = 502 ∨ statusCode = 503 ∨ statusCode = 504 then
    { code := .CONNECTION_FAILED
      message := "Server error (" ++ toString statusCode ++ "). The AEM instance may be unavailable."
      statusCode := some statusCode
      url := some safeUrl }
  else
    { code := .CONNECTION_FAILED
      message := "Request failed with status " ++ toString statusCode
      statusCode := some statusCode
      url := some safeUrl
      context := [("body", String.mk (body.toList.take 200))] }

/-- `AemHttpClient.createError(statusCode, url, body)`: the structured error,
with the response body redacted (`redactErrorMessage(JSON.stringify(body))`)
before being attached as the diagnostic description. -/
def createErrorModel (statusCode : Int) (safeUrl : String) (body : String) :
    ModelNodeApiError :=
  let details := getErrorDetails statusCode safeUrl body
  { message := details.message
    description := redactErrorMessage (jsonStringifyStr body)
    httpCode := toString statusCode }

/-- The status check of `AemHttpClient.request` (`executeRequest`, lines
227-238): a status `≥ 400` raises the classified error (with the response's
status code attached), anything else resolves to the response. -/
def requestStatusCheck (safeUrl : String) (resp : ModelHttpResponse) :
    Except ModelNodeApiError ModelHttpResponse :=
  if resp.statusCode ≥ 400 then
    Except.error
      { createErrorModel resp.statusCode safeUrl resp.body with
          statusCode := some resp.statusCode }
  else Except.ok resp

/-! ### Batched replication (`src/adapters/aem65/replication.ts`)

Network effects are made explicit: the outcome of each live call comes from
an oracle `String → HttpOutcome`, and every call actually issued is recorded
in a `NetCall` trace returned alongside the results. -/

/-- JavaScript `a || b` on strings (the empty string is falsy). -/
def jsOrStr (s fallback : String) : String :=
  if s = "" then fallback else s

/-- `type ReplicationAction`. -/
inductive ReplicationAction : Type
  | activate
  | deactivate
deriving Repr, DecidableEq

/-- The action's own name as used in messages (`${action}`). -/
def actionName : ReplicationAction → String
  | .activate => "activate"
  | .deactivate => "deactivate"

/-- `mapActionToCmd(action)`. -/
def mapActionToCmd : ReplicationAction → String
  | .activate => "Activate"
  | .deactivate => "Deactivate"

/-- Outcome of one live HTTP call as seen by an adapter: a resolved response
(status code plus the optional `message` field of its body), or a rejected
promise carrying an error message and the optional parsed `httpCode`. -/
inductive HttpOutcome : Type
  | success (statusCode : Int) (bodyMessage : Option String)
  | failure (message : String) (httpCode : Option Int)
deriving Repr, DecidableEq

/-- A network call actually issued (the observable trace). -/
inductive NetCall : Type
  | replicationPost (cmd : String) (path : String)
  | purgeRequest (method : String) (url : String)
  | packageUpload (fileName : String)
  | packageInstall (packageId : String)
deriving Repr, DecidableEq

/-- `interface ReplicationPathResult`. -/
structure ReplicationPathResult : Type where
  path : String
  action : ReplicationAction
  requested : Bool
  ok : Bool
  statusCode : Int
  message : String
  durationMs : Nat
  timestamp : String
deriving Repr, DecidableEq

/-- `replicateSinglePath(client, path, action, dryRun)`: validate, then
dry-run short-circuit, then the live form POST with its `try`/`catch`
conversion of a thrown error into a failed result. -/
def replicateSinglePath (oracle : String → HttpOutcome) (path : String)
    (action : ReplicationAction) (dryRun : Bool) :
    ReplicationPathResult × List NetCall :=
  let validation := validateAemPath path
  if !validation.valid then
    ({ path := path, action := action, requested := false, ok := false
       statusCode := 400
       message := jsOrStr ((validation.error.map (fun e => e.message)).getD "") "Invalid path"
       durationMs := 0, timestamp := modelTimestamp }, [])
  else if dryRun then
    ({ path := path, action := action, requested := false, ok := true
       statusCode := 200
       message := "[DRY RUN] Would " ++ actionName action ++ " path"
       durationMs := 0, timestamp := modelTimestamp }, [])
  else
    match oracle path with
    | .success sc bodyMessage =>
        let ok := decide (200 ≤ sc ∧ sc < 300)
        ({ path := path, action := action, requested := true, ok := ok
           statusCode := sc
           message := jsOrStr (bodyMessage.getD "")
             (if ok then "Successfully " ++ actionName action ++ "d" else "Replication failed")
           durationMs := 0, timestamp := modelTimestamp },
         [NetCall.replicationPost (mapActionToCmd action) path])
    | .failure m httpCode =>
        ({ path := path, action := action, requested := true, ok := false
           statusCode := httpCode.getD 500
           message := "Replication failed: " ++ m
           durationMs := 0, timestamp := modelTimestamp },
         [NetCall.replicationPost (mapActionToCmd action) path])

/-- The skip result pushed for a path already in `processedPaths`. -/
def replicationSkipResult (path : String) (action : ReplicationAction) :
    ReplicationPathResult :=
  { path := path, action := action, requested := false, ok := true
    statusCode := 200
    message := "Skipped (already processed in this run)"
    durationMs := 0, timestamp := modelTimestamp }

/-- The per-item loop inside one batch of `processBatches`: results, calls
issued, and the final `processedPaths` set (modelled as a list with
membership). -/
def runItems (oracle : String → HttpOutcome) (action : ReplicationAction)
    (dryRun : Bool) :
    List String → List String →
      List ReplicationPathResult × List NetCall × List String
  | [], processed => ([], [], processed)
  | p :: rest, processed =>
      if processed.contains p then
        let t := runItems oracle action dryRun rest processed
        (replicationSkipResult p action :: t.1, t.2.1, t.2.2)
      else
        let r := replicateSinglePath oracle p action dryRun
        let t := runItems oracle action dryRun rest (p :: processed)
        (r.1 :: t.1, r.2 ++ t.2.1, t.2.2)

/-- Fixed-size batching (`paths.slice(i, i + batchSize)` with
`i += batchSize`); `fuel` bounds the recursion (the list length suffices),
and a zero batch size — on which the source loop would not terminate — is
modelled as a single batch. -/
def chunksOfAux {α : Type} (n : Nat) : Nat → List α → List (List α)
  | _, [] => []
  | 0, l => [l]
  | Nat.succ fuel, x :: xs =>
      if n = 0 then [x :: xs]
      else (x :: xs).take n :: chunksOfAux n fuel ((x :: xs).drop n)

/-- Split a list into chunks of `n`. -/
def chunksOf {α : Type} (n : Nat) (l : List α) : List (List α) :=
  chunksOfAux n l.length l

/-- The outer batch loop of `processBatches` (the inter-batch
`sleep(throttleMs)` is a pure delay with no observable effect on results or
calls). -/
def goBatches (oracle : String → HttpOutcome) (action : ReplicationAction)
    (dryRun : Bool) :
    List (List String) → List String →
      List ReplicationPathResult × List NetCall × List String
  | [], processed => ([], [], processed)
  | b :: bs, processed =>
      let t1 := runItems oracle action dryRun b processed
      let t2 := goBatches oracle action dryRun bs t1.2.2
      (t1.1 ++ t2.1, t1.2.1 ++ t2.2.1, t2.2.2)

/-- `processBatches(client, paths, action, batchSize, throttleMs, dryRun,
processedPaths)`. -/
def processBatches (oracle : String → HttpOutcome) (paths : List String)
    (action : ReplicationAction) (batchSize : Nat) (throttleMs : ℚ)
    (dryRun : Bool) (processedPaths : List String) :
    List ReplicationPathResult × List NetCall × List String :=
  let _ := throttleMs
  goBatches oracle action dryRun (chunksOf batchSize paths) processedPaths

/-- `interface ReplicationOutput`. -/
structure ReplicationOutput : Type where
  ok : Bool
  totalPaths : Nat
  successCount : Nat
  failureCount : Nat
  dryRun : Bool
  results : List ReplicationPathResult
  timestamp : String
deriving Repr, DecidableEq

/-- First-seen-order deduplication (`[...new Set(paths)]`). -/
def dedupFirst (seen : List String) : List String → List String
  | [] => []
  | x :: xs =>
      if seen.contains x then dedupFirst seen xs
      else x :: dedupFirst (x :: seen) xs

/-- `performReplication(client, options)`: deduplicate, process in batches,
aggregate. -/
def performReplication (oracle : String → HttpOutcome) (paths : List String)
    (action : ReplicationAction) (batchSize : Nat := 10) (throttleMs : ℚ := 100)
    (dryRun : Bool := false) : ReplicationOutput × List NetCall :=
  let uniquePaths := dedupFirst [] paths
  let t := processBatches oracle uniquePaths action batchSize throttleMs dryRun []
  let results := t.1
  let successCount := (results.filter (fun r => r.ok)).length
  let failureCount := (results.filter (fun r => !r.ok)).length
  ({ ok := failureCount == 0
     totalPaths := results.length
     successCount := successCount
     failureCount := failureCount
     dryRun := dryRun
     results := results
     timestamp := modelTimestamp }, t.2.1)

/-! ### Cache purge (`src/nodes/AemCachePurge/AemCachePurge.node.ts`)

The per-item URL loop and aggregation of `AemCachePurge.execute` (lines
260-383); n8n parameter plumbing around it carries no claim content. -/

/-- `type PurgeMethod`. -/
inductive PurgeMethod : Type
  | PURGE
  | POST
deriving Repr, DecidableEq

/-- The method's name as used in messages and requests. -/
def purgeMethodName : PurgeMethod → String
  | .PURGE => "PURGE"
  | .POST => "POST"

/-- `interface PurgeUrlResult`. -/
structure PurgeUrlResult : Type where
  url : String
  method : PurgeMethod
  requested : Bool
  ok : Bool
  statusCode : Int
  message : String
  timestamp : String
deriving Repr, DecidableEq

/-- The skip result pushed for a URL already in `processedUrls`. -/
def purgeSkipResult (url : String) (method : PurgeMethod) : PurgeUrlResult :=
  { url := url, method := method, requested := false, ok := true
    statusCode := 200
    message := "Skipped (duplicate URL in this batch)"
    timestamp := modelTimestamp }

/-- The per-URL body of the purge loop after the duplicate check: URL-format
validation, allowlist validation, dry-run short-circuit, then the live
request with its `try`/`catch` conversion of a thrown error. -/
def purgeOneUrl (oracle : String → HttpOutcome) (method : PurgeMethod)
    (allowlistRegex : String) (dryRun : Bool) (url : String) :
    PurgeUrlResult × List NetCall :=
  let urlValidation := validateUrl url
  if !urlValidation.valid then
    ({ url := url, method := method, requested := false, ok := false
       statusCode := 400
       message := jsOrStr ((urlValidation.error.map (fun e => e.message)).getD "")
         "Invalid URL format"
       timestamp := modelTimestamp }, [])
  else
    let allowlistValidation := validateUrlAgainstAllowlist url allowlistRegex
    if !allowlistValidation.valid then
      ({ url := url, method := method, requested := false, ok := false
         statusCode := 403
         message := jsOrStr ((allowlistValidation.error.map (fun e => e.message)).getD "")
           "URL not in allowlist"
         timestamp := modelTimestamp }, [])
    else if dryRun then
      ({ url := url, method := method, requested := false, ok := true
         statusCode := 200
         message := "[DRY RUN] Would send " ++ purgeMethodName method ++ " request"
         timestamp := modelTimestamp }, [])
    else
      match oracle url with
      | .success sc _ =>
          let ok := decide (200 ≤ sc ∧ sc < 300)
          ({ url := url, method := method, requested := true, ok := ok
             statusCode := sc
             message := if ok then "Purge successful"
               else "Purge failed with status " ++ toString sc
             timestamp := modelTimestamp },
           [NetCall.purgeRequest (purgeMethodName method) url])
      | .failure m _ =>
          ({ url := url, method := method, requested := true, ok := false
             statusCode := 0
             message := "Request failed: " ++ m
             timestamp := modelTimestamp },
           [NetCall.purgeRequest (purgeMethodName method) url])

/-- The URL loop of `AemCachePurge.execute` (the duplicate check precedes
everything else; `processedUrls` is modelled as a list with membership). -/
def purgeLoop (oracle : String → HttpOutcome) (method : PurgeMethod)
    (allowlistRegex : String) (dryRun : Bool) :
    List String → List String → List PurgeUrlResult × List NetCall
  | [], _ => ([], [])
  | u :: rest, processed =>
      if processed.contains u then
        let t := purgeLoop oracle method allowlistRegex dryRun rest processed
        (purgeSkipResult u method :: t.1, t.2)
      else
        let r := purgeOneUrl oracle method allowlistRegex dryRun u
        let t := purgeLoop oracle method allowlistRegex dryRun rest (u :: processed)
        (r.1 :: t.1, r.2 ++ t.2)

/-- `interface CachePurgeOutput`. -/
structure CachePurgeOutput : Type where
  ok : Bool
  totalUrls : Nat
  successCount : Nat
  failureCount : Nat
  dryRun : Bool
  results : List PurgeUrlResult
  timestamp : String
deriving Repr, DecidableEq

/-- The purge flow for one n8n item: loop over the URLs, then aggregate
(lines 260-383 of the node). -/
def runCachePurge (oracle : String → HttpOutcome) (method : PurgeMethod)
    (allowlistRegex : String) (dryRun : Bool) (urls : List String) :
    CachePurgeOutput × List NetCall :=
  let t := purgeLoop oracle method allowlistRegex dryRun urls []
  let successCount := (t.1.filter (fun r => r.ok)).length
  let failureCount := (t.1.filter (fun r => !r.ok)).length
  ({ ok := failureCount == 0
     totalUrls := t.1.length
     successCount := successCount
     failureCount := failureCount
     dryRun := dryRun
     results := t.1
     timestamp := modelTimestamp }, t.2)

/-! ### Package manager (`src/adapters/aem65/packageManager.ts`) -/

/-- A package-manager response body: raw markup (a string), or structured
data with the fields the adapter reads. -/
inductive PkgBody : Type
  | markup (s : String)
  | obj (success : Option Bool) (path : Option String)
      (log : Option (List String)) (msg : Option String)
deriving Repr, DecidableEq

/-- `isSuccessResponse(response, statusCode)` — verbatim, including the
disjunction chain of the markup branch. -/
def isSuccessResponse (response : PkgBody) (statusCode : Int) : Bool :=
  if statusCode < 200 ∨ statusCode ≥ 300 then false
  else
    match response with
    | .markup s =>
        strIncludes s "success" ||
        strIncludes s "Package uploaded" ||
        strIncludes s "Package installed" ||
        !(strIncludes s "error") ||
        !(strIncludes s "Error")
    | .obj success _ _ _ => success == some true

/-- `extractPackageName(_data, providedName)`; the timestamp of the
generated fallback name is `modelNowMs`. -/
def extractPackageName (providedName : String) : String :=
  if jsTrim providedName ≠ "" then
    let name := jsTrim providedName
    if strEndsWith name ".zip" then name else name ++ ".zip"
  else "package-" ++ toString modelNowMs ++ ".zip"

/-- Characters admitted by the `[^"<\s]` class of the package-path regex. -/
def pkgPathChar (c : Char) : Bool :=
  !(c == '"' || c == '<' || c.isWhitespace)

/-- Greedy-with-backtracking tail of `/\/etc\/packages\/[^"<\s]+\.zip/`:
the longest prefix of the admitted-character run that still ends in `.zip`
(and has at least one character before it). -/
def zipCut (run : List Char) : Option (List Char) :=
  ((List.range (run.length + 1)).reverse.find?
      (fun k => decide (5 ≤ k) && listHasPref ".zip".toList.reverse (run.take k).reverse)).map
    (fun k => run.take k)

/-- Leftmost match of `/\/etc\/packages\/[^"<\s]+\.zip/` in a character
list. -/
def scanPkgPath : List Char → Option String
  | [] => none
  | l@(_ :: t) =>
      if listHasPref "/etc/packages/".toList l then
        match zipCut ((l.drop 14).takeWhile pkgPathChar) with
        | some pre => some (String.mk ("/etc/packages/".toList ++ pre))
        | none => scanPkgPath t
      else scanPkgPath t

/-- `parsePackageId(response)`.  For markup bodies the source first attempts
`JSON.parse`; markup bodies in scope are not JSON, so that attempt is
modelled as failing (structured bodies arrive as `PkgBody.obj`), leaving the
regex scan.  `response.path || null` makes an empty path falsy. -/
def parsePackageId (response : PkgBody) : Option String :=
  match response with
  | .markup s => scanPkgPath s.toList
  | .obj _ path _ _ =>
      match path with
      | some p => if p = "" then none else some p
      | none => none

/-- Remove `/<[^>]*>/g` tag spans; `fuel` bounds the recursion (the input
length suffices). -/
def stripTagsAux : Nat → List Char → List Char
  | _, [] => []
  | 0, l => l
  | Nat.succ fuel, '<' :: rest =>
      match rest.dropWhile (fun c => c != '>') with
      | '>' :: after => stripTagsAux fuel after
      | _ => '<' :: stripTagsAux fuel rest
  | Nat.succ fuel, c :: rest => c :: stripTagsAux fuel rest

/-- `line.replace(/<[^>]*>/g, '')`. -/
def stripTags (l : List Char) : List Char :=
  stripTagsAux l.length l

/-- `s.split('\n')` (keeps empty segments). -/
def splitLinesGo : List Char → List Char → List (List Char)
  | [], acc => [acc.reverse]
  | '\n' :: rest, acc => acc.reverse :: splitLinesGo rest []
  | c :: rest, acc => splitLinesGo rest (c :: acc)

/-- Split a character list at newlines. -/
def splitLines (l : List Char) : List (List Char) :=
  splitLinesGo l []

/-- `parseInstallLogs(response)`. -/
def parseInstallLogs (response : PkgBody) : List String :=
  match response with
  | .markup s =>
      let logs := (splitLines s.toList).filterMap (fun line =>
        let trimmed := jsTrim (String.mk (stripTags line))
        if trimmed != "" && !(strStartsWith trimmed "<") then some trimmed else none)
      logs.take 100
  | .obj _ _ log msg =>
      match log with
      | some logList => logList
      | none =>
          match msg with
          | some m => if m = "" then [] else [m]
          | none => []

/-- Outcome of one package-manager HTTP call: a resolved response or a
rejected promise (error message plus the optional parsed `httpCode`). -/
inductive PkgOutcome : Type
  | resp (statusCode : Int) (body : PkgBody)
  | thrown (message : String) (httpCode : Option Int)
deriving Repr, DecidableEq

/-- `interface PackageOutput`. -/
structure PackageOutput : Type where
  ok : Bool
  statusCode : Int
  uploaded : Bool
  installed : Bool
  packageId : Option String
  packageName : String
  logs : List String
  dryRun : Bool
  timestamp : String
deriving Repr, DecidableEq

/-- `uploadPackage(client, packageData, options)`: dry-run short-circuit,
upload, optional install, with the outer `try`/`catch` folding a thrown
error into a failed output.  `uploadOracle` / `installOracle` supply the two
calls' outcomes; the binary payload itself is opaque to the control flow. -/
def uploadPackage (uploadOracle : Unit → PkgOutcome)
    (installOracle : String → PkgOutcome) (packageName : String := "")
    (install : Bool := false) (dryRun : Bool := false) :
    PackageOutput × List NetCall :=
  let name := extractPackageName packageName
  if dryRun then
    ({ ok := true, statusCode := 200, uploaded := false, installed := false
       packageId := none, packageName := name
       logs := ["[DRY RUN] Would upload package"] ++
         (if install then ["[DRY RUN] Would install package after upload"] else [])
       dryRun := true, timestamp := modelTimestamp }, [])
  else
    match uploadOracle () with
    | .thrown m httpCode =>
        ({ ok := false, statusCode := httpCode.getD 500, uploaded := false
           installed := false, packageId := none, packageName := name
           logs := ["Uploading package: " ++ name, "Error: " ++ m]
           dryRun := false, timestamp := modelTimestamp },
         [NetCall.packageUpload name])
    | .resp sc body =>
        let uploaded := isSuccessResponse body sc
        let packageId := parsePackageId body
        if !uploaded then
          ({ ok := false, statusCode := sc, uploaded := false, installed := false
             packageId := packageId, packageName := name
             logs := ["Uploading package: " ++ name, "Package upload failed"] ++
               parseInstallLogs body
             dryRun := false, timestamp := modelTimestamp },
           [NetCall.packageUpload name])
        else
          let logsBase := ["Uploading package: " ++ name, "Package uploaded successfully"] ++
            (match packageId with
             | some pid => ["Package path: " ++ pid]
             | none => [])
          match install, packageId with
          | true, some pid =>
              (match installOracle pid with
               | .thrown m httpCode =>
                   ({ ok := false, statusCode := httpCode.getD 500, uploaded := true
                      installed := false, packageId := packageId, packageName := name
                      logs := logsBase ++ ["Installing package...", "Error: " ++ m]
                      dryRun := false, timestamp := modelTimestamp },
                    [NetCall.packageUpload name, NetCall.packageInstall pid])
               | .resp sc2 body2 =>
                   let installed := isSuccessResponse body2 sc2
                   ({ ok := uploaded && installed, statusCode := sc2, uploaded := true
                      installed := installed, packageId := packageId, packageName := name
                      logs := logsBase ++ ["Installing package..."] ++ parseInstallLogs body2 ++
                        [if installed then "Package installed successfully"
                         else "Package installation failed"]
                      dryRun := false, timestamp := modelTimestamp },
                    [NetCall.packageUpload name, NetCall.packageInstall pid]))
          | true, none =>
              ({ ok := false, statusCode := sc, uploaded := true, installed := false
                 packageId := packageId, packageName := name
                 logs := logsBase, dryRun := false, timestamp := modelTimestamp },
               [NetCall.packageUpload name])
          | false, _ =>
              ({ ok := uploaded, statusCode := sc, uploaded := true, installed := false
                 packageId := packageId, packageName := name
                 logs := logsBase, dryRun := false, timestamp := modelTimestamp },
               [NetCall.packageUpload name])

/-! ### Concrete values used by the verification -/

/-- The default retry configuration with jitter disabled. -/
def noJitterConfig : RetryConfig :=
  { DEFAULT_RETRY_CONFIG with jitter := false }

/-- A retry configuration whose backoff multiplier halves the delay on each
attempt (all fields are legal `RetryConfig` values). -/
def halvingConfig : RetryConfig :=
  { DEFAULT_RETRY_CONFIG with backoffMultiplier := 1 / 2, jitter := false }

/-- The compiled form of the allowlist pattern `"evil"`. -/
def evilCompiled : CompiledPattern :=
  (compilePattern "evil").getD
    { anchorStart := false, core := Reg.eps, anchorEnd := false }

/-! ### Lemmas about the batched engines -/

theorem length_filter_partition {α : Type} (p : α → Bool) (l : List α) :
    (l.filter p).length + (l.filter (fun a => !(p a))).length = l.length := by
  induction l with
  | nil => rfl
  | cons a t ih =>
      by_cases h : p a <;> simp [List.filter_cons, h, ← ih] <;> omega

theorem chunksOfAux_flatten {α : Type} (n : Nat) :
    ∀ (fuel : Nat) (l : List α), l.length ≤ fuel →
      (chunksOfAux n fuel l).flatten = l := by
  intro fuel
  induction fuel with
  | zero =>
      intro l hl
      cases l with
      | nil => rfl
      | cons x xs => simp at hl
  | succ fuel ih =>
      intro l hl
      cases l with
      | nil => rfl
      | cons x xs =>
          rw [chunksOfAux]
          by_cases hn : n = 0
          · simp [hn]
          · simp only [if_neg hn, List.flatten_cons]
            rw [ih ((x :: xs).drop n)
              (by
                simp only [List.length_drop, List.length_cons]
                simp only [List.length_cons] at hl
                omega),
              List.take_append_drop]

theorem chunksOf_flatten {α : Type} (n : Nat) (l : List α) :
    (chunksOf n l).flatten = l :=
  chunksOfAux_flatten n l.length l (Nat.le_refl _)

theorem runItems_append (oracle : String → HttpOutcome) (action : ReplicationAction)
    (dryRun : Bool) (a b : List String) (processed : List String) :
    runItems oracle action dryRun (a ++ b) processed =
      ((runItems oracle action dryRun a processed).1 ++
         (runItems oracle action dryRun b
           (runItems oracle action dryRun a processed).2.2).1,
       (runItems oracle action dryRun a processed).2.1 ++
         (runItems oracle action dryRun b
           (runItems oracle action dryRun a processed).2.2).2.1,
       (runItems oracle action dryRun b
         (runItems oracle action dryRun a processed).2.2).2.2) := by
  induction a generalizing processed with
  | nil => simp [runItems]
  | cons p rest ih =>
      rw [List.cons_append, runItems, runItems]
      by_cases h : processed.contains p
      · rw [if_pos h, if_pos h, ih]
        simp
      · rw [if_neg h, if_neg h, ih]
        simp [List.append_assoc]

theorem goBatches_eq_runItems (oracle : String → HttpOutcome)
    (action : ReplicationAction) (dryRun : Bool) (bs : List (List String))
    (processed : List String) :
    goBatches oracle action dryRun bs processed =
      runItems oracle action dryRun bs.flatten processed := by
  induction bs generalizing processed with
  | nil => simp [goBatches, runItems]
  | cons b rest ih =>
      rw [goBatches, List.flatten_cons, runItems_append, ih]

theorem processBatches_eq_runItems (oracle : String → HttpOutcome)
    (paths : List String) (action : ReplicationAction) (batchSize : Nat)
    (throttleMs : ℚ) (dryRun : Bool) (processedPaths : List String) :
    processBatches oracle paths action batchSize throttleMs dryRun processedPaths =
      runItems oracle action dryRun paths processedPaths := by
  unfold processBatches
  rw [goBatches_eq_runItems, chunksOf_flatten]

theorem mem_dedupFirst (x : String) :
    ∀ (l seen : List String), x ∈ dedupFirst seen l → x ∈ l ∧ x ∉ seen := by
  intro l
  induction l with
  | nil => intro seen h; simp [dedupFirst] at h
  | cons y ys ih =>
      intro seen h
      rw [dedupFirst] at h
      by_cases hy : seen.contains y
      · rw [if_pos hy] at h
        have := ih seen h
        exact ⟨List.mem_cons_of_mem y this.1, this.2⟩
      · rw [if_neg hy] at h
        rcases List.mem_cons.mp h with rfl | hmem
        · refine ⟨List.mem_cons_self x ys, ?_⟩
          intro hx
          exact hy (by simpa using hx)
        · have := ih (y :: seen) hmem
          refine ⟨List.mem_cons_of_mem y this.1, ?_⟩
          intro hx
          exact this.2 (List.mem_cons_of_mem y hx)

theorem dedupFirst_nodup : ∀ (l seen : List String), (dedupFirst seen l).Nodup := by
  intro l
  induction l with
  | nil => intro seen; simp [dedupFirst]
  | cons y ys ih =>
      intro seen
      rw [dedupFirst]
      by_cases hy : seen.contains y
      · rw [if_pos hy]; exact ih seen
      · rw [if_neg hy]
        refine List.nodup_cons.mpr ⟨?_, ih (y :: seen)⟩
        intro hmem
        exact (mem_dedupFirst y ys (y :: seen) hmem).2 (List.mem_cons_self y seen)

theorem runItems_of_nodup (oracle : String → HttpOutcome)
    (action : ReplicationAction) (dryRun : Bool) :
    ∀ (items processed : List String), items.Nodup →
      (∀ x ∈ items, x ∉ processed) →
      runItems oracle action dryRun items processed =
        (items.map (fun p => (replicateSinglePath oracle p action dryRun).1),
         (items.map (fun p => (replicateSinglePath oracle p action dryRun).2)).flatten,
         items.reverse ++ processed) := by
  intro items
  induction items with
  | nil => intro processed _ _; simp [runItems]
  | cons p rest ih =>
      intro processed hnodup hfresh
      rw [runItems]
      have hp : processed.contains p = false := by
        have := hfresh p (List.mem_cons_self p rest)
        simpa using this
      rw [hp]
      simp only [Bool.false_eq_true, if_false]
      rw [ih (p :: processed) (List.nodup_cons.mp hnodup).2 ?_]
      · simp
      · intro x hx
        intro hmem
        rcases List.mem_cons.mp hmem with rfl | hmem2
        · exact (List.nodup_cons.mp hnodup).1 hx
        · exact hfresh x (List.mem_cons_of_mem p hx) hmem2

theorem performReplication_results (oracle : String → HttpOutcome)
    (paths : List String) (action : ReplicationAction) (batchSize : Nat)
    (throttleMs : ℚ) (dryRun : Bool) :
    (performReplication oracle paths action batchSize throttleMs dryRun).1.results =
      (dedupFirst [] paths).map
        (fun p => (replicateSinglePath oracle p action dryRun).1) := by
  unfold performReplication
  simp only [processBatches_eq_runItems]
  rw [runItems_of_nodup oracle action dryRun (dedupFirst [] paths) []
    (dedupFirst_nodup paths []) (by intro x _ hx; simp at hx)]

theorem purgeLoop_length (oracle : String → HttpOutcome) (method : PurgeMethod)
    (allowlistRegex : String) (dryRun : Bool) :
    ∀ (urls processed : List String),
      (purgeLoop oracle method allowlistRegex dryRun urls processed).1.length =
        urls.length := by
  intro urls
  induction urls with
  | nil => intro processed; rfl
  | cons u rest ih =>
      intro processed
      rw [purgeLoop]
      by_cases h : processed.contains u
      · rw [if_pos h]
        simp [ih]
      · rw [if_neg h]
        simp [ih]

theorem purgeOneUrl_url (oracle : String → HttpOutcome) (method : PurgeMethod)
    (allowlistRegex : String) (dryRun : Bool) (u : String) :
    (purgeOneUrl oracle method allowlistRegex dryRun u).1.url = u := by
  unfold purgeOneUrl
  dsimp only
  repeat' split
  all_goals rfl

theorem purgeSkipResult_url (u : String) (method : PurgeMethod) :
    (purgeSkipResult u method).url = u := rfl

theorem purgeLoop_filter_eq (oracle : String → HttpOutcome) (method : PurgeMethod)
    (allowlistRegex : String) (dryRun : Bool) (u : String) :
    ∀ (urls processed : List String),
      (purgeLoop oracle method allowlistRegex dryRun urls processed).1.filter
          (fun r => r.url == u) =
        (if u ∈ processed then
          List.replicate (urls.count u) (purgeSkipResult u method)
        else if urls.count u = 0 then []
        else (purgeOneUrl oracle method allowlistRegex dryRun u).1 ::
          List.replicate (urls.count u - 1) (purgeSkipResult u method)) := by
  intro urls
  induction urls with
  | nil =>
      intro processed
      by_cases h : u ∈ processed <;> simp [purgeLoop, h]
  | cons v rest ih =>
      intro processed
      rw [purgeLoop]
      by_cases hv : processed.contains v
      · -- duplicate branch: a skip result for `v`
        rw [if_pos hv]
        by_cases hvu : v = u
        · subst hvu
          have hmem : v ∈ processed := by simpa using hv
          simp [List.filter_cons, purgeSkipResult_url, hmem, ih,
            List.count_cons_self, List.replicate_succ]
        · have hcount : List.count u (v :: rest) = List.count u rest := by
            simp [List.count_cons, hvu]
          simp [List.filter_cons, purgeSkipResult_url, hvu, ih, hcount]
      · -- fresh branch: live processing of `v`, then the loop with `v` marked
        rw [if_neg hv]
        by_cases hvu : v = u
        · subst hvu
          have hmem : v ∉ processed := by simpa using hv
          have hmem2 : v ∈ v :: processed := List.mem_cons_self v processed
          simp [List.filter_cons, purgeOneUrl_url, hmem, hmem2, ih,
            List.count_cons_self]
        · have hcount : List.count u (v :: rest) = List.count u rest := by
            simp [List.count_cons, hvu]
          have hmemiff : u ∈ v :: processed ↔ u ∈ processed := by
            constructor
            · intro h
              rcases List.mem_cons.mp h with h1 | h2
              · exact absurd h1.symm hvu
              · exact h2
            · exact fun h => List.mem_cons_of_mem v h
          simp [List.filter_cons, purgeOneUrl_url, hvu, ih, hcount, hmemiff]

theorem replicateSinglePath_dryRun (oracle : String → HttpOutcome) (p : String)
    (action : ReplicationAction) :
    (replicateSinglePath oracle p action true).2 = [] ∧
      (replicateSinglePath oracle p action true).1.requested = false := by
  unfold replicateSinglePath
  dsimp only
  split
  · exact ⟨rfl, rfl⟩
  · exact ⟨rfl, rfl⟩

theorem runItems_dryRun (oracle : String → HttpOutcome) (action : ReplicationAction) :
    ∀ (items processed : List String),
      (runItems oracle action true items processed).2.1 = [] ∧
        ∀ r ∈ (runItems oracle action true items processed).1, r.requested = false := by
  intro items
  induction items with
  | nil =>
      intro processed
      exact ⟨rfl, by intro r hr; simp [runItems] at hr⟩
  | cons p rest ih =>
      intro processed
      rw [runItems]
      by_cases h : processed.contains p
      · rw [if_pos h]
        dsimp only
        refine ⟨(ih processed).1, ?_⟩
        intro r hr
        rcases List.mem_cons.mp hr with rfl | hr2
        · rfl
        · exact (ih processed).2 r hr2
      · rw [if_neg h]
        dsimp only
        have hsingle := replicateSinglePath_dryRun oracle p action
        refine ⟨?_, ?_⟩
        · rw [hsingle.1, List.nil_append]
          exact (ih (p :: processed)).1
        · intro r hr
          rcases List.mem_cons.mp hr with rfl | hr2
          · exact hsingle.2
          · exact (ih (p :: processed)).2 r hr2

theorem purgeOneUrl_dryRun (oracle : String → HttpOutcome) (method : PurgeMethod)
    (allowlistRegex : String) (u : String) :
    (purgeOneUrl oracle method allowlistRegex true u).2 = [] ∧
      (purgeOneUrl oracle method allowlistRegex true u).1.requested = false := by
  unfold purgeOneUrl
  dsimp only
  split
  · exact ⟨rfl, rfl⟩
  · split
    · exact ⟨rfl, rfl⟩
    · exact ⟨rfl, rfl⟩

theorem purgeLoop_dryRun (oracle : String → HttpOutcome) (method : PurgeMethod)
    (allowlistRegex : String) :
    ∀ (urls processed : List String),
      (purgeLoop oracle method allowlistRegex true urls processed).2 = [] ∧
        ∀ r ∈ (purgeLoop oracle method allowlistRegex true urls processed).1,
          r.requested = false := by
  intro urls
  induction urls with
  | nil =>
      intro processed
      exact ⟨rfl, by intro r hr; simp [purgeLoop] at hr⟩
  | cons u rest ih =>
      intro processed
      rw [purgeLoop]
      by_cases h : processed.contains u
      · rw [if_pos h]
        dsimp only
        refine ⟨(ih processed).1, ?_⟩
        intro r hr
        rcases List.mem_cons.mp hr with rfl | hr2
        · rfl
        · exact (ih processed).2 r hr2
      · rw [if_neg h]
        dsimp only
        have hsingle := purgeOneUrl_dryRun oracle method allowlistRegex u
        refine ⟨?_, ?_⟩
        · rw [hsingle.1, List.nil_append]
          exact (ih (u :: processed)).1
        · intro r hr
          rcases List.mem_cons.mp hr with rfl | hr2
          · exact hsingle.2
          · exact (ih (u :: processed)).2 r hr2

/-! ### The claims -/

/-- C1: for every batched replication or cache-purge invocation, the
aggregate output satisfies `totalPaths`/`totalUrls` = `successCount +
failureCount` = `results.length`, and the overall `ok` flag is true if and
only if `failureCount` is zero. -/
theorem C1_batch_aggregate_invariants (oracle oracle2 : String → HttpOutcome)
    (paths urls : List String) (action : ReplicationAction) (batchSize : Nat)
    (throttleMs : ℚ) (dryRun dryRun2 : Bool) (method : PurgeMethod)
    (allowlistRegex : String) :
    ((performReplication oracle paths action batchSize throttleMs dryRun).1.totalPaths =
        (performReplication oracle paths action batchSize throttleMs dryRun).1.results.length ∧
      (performReplication oracle paths action batchSize throttleMs dryRun).1.successCount +
          (performReplication oracle paths action batchSize throttleMs dryRun).1.failureCount =
        (performReplication oracle paths action batchSize throttleMs dryRun).1.results.length ∧
      (performReplication oracle paths action batchSize throttleMs dryRun).1.ok =
        ((performReplication oracle paths action batchSize throttleMs dryRun).1.failureCount == 0)) ∧
    ((runCachePurge oracle2 method allowlistRegex dryRun2 urls).1.totalUrls =
        (runCachePurge oracle2 method allowlistRegex dryRun2 urls).1.results.length ∧
      (runCachePurge oracle2 method allowlistRegex dryRun2 urls).1.successCount +
          (runCachePurge oracle2 method allowlistRegex dryRun2 urls).1.failureCount =
        (runCachePurge oracle2 method allowlistRegex dryRun2 urls).1.results.length ∧
      (runCachePurge oracle2 method allowlistRegex dryRun2 urls).1.ok =
        ((runCachePurge oracle2 method allowlistRegex dryRun2 urls).1.failureCount == 0)) := by
  constructor
  · have h := length_filter_partition (fun r : ReplicationPathResult => r.ok)
      (performReplication oracle paths action batchSize throttleMs dryRun).1.results
    exact ⟨rfl, h, rfl⟩
  · have h := length_filter_partition (fun r : PurgeUrlResult => r.ok)
      (runCachePurge oracle2 method allowlistRegex dryRun2 urls).1.results
    exact ⟨rfl, h, rfl⟩

/-- C2 counterexample: replaying the same path twice in one replication batch
does not yield one live attempt plus one skip result — the input is
deduplicated up front, so the output has a single result (the live attempt)
and no skip result at all. -/
theorem C2_counterexample :
    (performReplication (fun _ => HttpOutcome.success 200 none)
        ["/content/a", "/content/a"] ReplicationAction.activate 10 100 false).1.results.length
        = 1 ∧
      (performReplication (fun _ => HttpOutcome.success 200 none)
          ["/content/a", "/content/a"] ReplicationAction.activate 10 100 false).1.results.map
          (fun r => r.message) = ["Successfully activated"] := by
  exact ⟨by decide, by decide⟩

/-- C2 (amended): in a cache-purge batch, a URL occurring exactly twice in
the input yields exactly one processed attempt and one
"Skipped (duplicate URL in this batch)" result with `requested = false`, in
that order; in replication, the input list is deduplicated before
processing, so the results are exactly one per distinct path (the
"already processed" skip branch is unreachable and a duplicate yields no
second result). -/
theorem C2_duplicate_handling (oracle oracle2 : String → HttpOutcome)
    (paths urls : List String) (u : String) (action : ReplicationAction)
    (batchSize : Nat) (throttleMs : ℚ) (dryRun dryRun2 : Bool)
    (method : PurgeMethod) (allowlistRegex : String)
    (hcount : urls.count u = 2) :
    ((runCachePurge oracle2 method allowlistRegex dryRun2 urls).1.results.filter
        (fun r => r.url == u) =
      [(purgeOneUrl oracle2 method allowlistRegex dryRun2 u).1,
       purgeSkipResult u method]) ∧
    (purgeSkipResult u method).requested = false ∧
    (purgeSkipResult u method).message = "Skipped (duplicate URL in this batch)" ∧
    ((performReplication oracle paths action batchSize throttleMs dryRun).1.results =
      (dedupFirst [] paths).map
        (fun p => (replicateSinglePath oracle p action dryRun).1)) := by
  refine ⟨?_, rfl, rfl, performReplication_results oracle paths action batchSize throttleMs dryRun⟩
  show ((purgeLoop oracle2 method allowlistRegex dryRun2 urls []).1.filter
      (fun r => r.url == u)) = _
  rw [purgeLoop_filter_eq]
  simp [hcount]

/-- C2 witness: the amended statement at a concrete duplicated URL list and a
concrete duplicated path list. -/
theorem C2_witness :
    (((runCachePurge (fun _ => HttpOutcome.success 200 none) PurgeMethod.PURGE "" false
          ["https://a.example.com/x", "https://a.example.com/x"]).1.results.filter
        (fun r => r.url == "https://a.example.com/x") =
      [(purgeOneUrl (fun _ => HttpOutcome.success 200 none) PurgeMethod.PURGE "" false
          "https://a.example.com/x").1,
       purgeSkipResult "https://a.example.com/x" PurgeMethod.PURGE]) ∧
    (purgeSkipResult "https://a.example.com/x" PurgeMethod.PURGE).requested = false ∧
    (purgeSkipResult "https://a.example.com/x" PurgeMethod.PURGE).message =
      "Skipped (duplicate URL in this batch)" ∧
    ((performReplication (fun _ => HttpOutcome.success 200 none)
        ["/content/a", "/content/a"] ReplicationAction.activate 10 100 false).1.results =
      (dedupFirst [] ["/content/a", "/content/a"]).map
        (fun p => (replicateSinglePath (fun _ => HttpOutcome.success 200 none) p
          ReplicationAction.activate false).1))) ∧
    (purgeOneUrl (fun _ => HttpOutcome.success 200 none) PurgeMethod.PURGE "" false
        "https://a.example.com/x").1.requested = true := by
  constructor
  · exact C2_duplicate_handling (fun _ => HttpOutcome.success 200 none)
      (fun _ => HttpOutcome.success 200 none) ["/content/a", "/content/a"]
      ["https://a.example.com/x", "https://a.example.com/x"] "https://a.example.com/x"
      ReplicationAction.activate 10 100 false false PurgeMethod.PURGE "" (by decide)
  · decide

/-- C3 counterexample: `regex.test` searches for a match anywhere in the URL,
so a compiled pattern that does not match the whole URL string (here
`"evil"` against `"https://evil.com/x"`, whose full-string match is `false`)
still lets the URL through — the validator returns valid, not
`AllowlistViolation`. -/
theorem C3_counterexample :
    (validateUrl "https://evil.com/x").valid = true ∧
    ((compilePattern "evil").map
        (fun cp => matchFull cp.core "https://evil.com/x".toList)) = some false ∧
    (validateUrlAgainstAllowlist "https://evil.com/x" "evil").valid = true := by
  exact ⟨by decide, by decide, by decide⟩

/-- C3 (amended): for every URL accepted by the basic URL validator,
`validateUrlAgainstAllowlist` returns valid when the allowlist pattern is
empty (or whitespace); when the pattern does not compile it returns invalid
with code `InvalidUrl`; otherwise it requires the compiled pattern to match
somewhere within the URL string (`RegExp.prototype.test` substring
semantics — full-string only when the pattern itself is anchored) and
returns invalid with `AllowlistViolation` exactly when the pattern matches
nowhere in the URL; in particular
`validateUrlAgainstAllowlist("https://evil.com/x", "^https://good\\.com/.*$")`
is invalid with `AllowlistViolation`. -/
theorem C3_allowlist_validation (url pattern : String)
    (hurl : (validateUrl url).valid = true) :
    (jsTrim pattern = "" → (validateUrlAgainstAllowlist url pattern).valid = true) ∧
    (compilePattern pattern = none → jsTrim pattern ≠ "" →
      (validateUrlAgainstAllowlist url pattern).valid = false ∧
        ((validateUrlAgainstAllowlist url pattern).error.map (fun e => e.code)) =
          some AemErrorCode.INVALID_URL) ∧
    (∀ cp, compilePattern pattern = some cp → jsTrim pattern ≠ "" →
      ((validateUrlAgainstAllowlist url pattern).valid = regexTest cp url) ∧
      (regexTest cp url = false →
        ((validateUrlAgainstAllowlist url pattern).error.map (fun e => e.code)) =
          some AemErrorCode.ALLOWLIST_VIOLATION)) ∧
    ((validateUrlAgainstAllowlist "https://evil.com/x" "^https://good\\.com/.*$").valid
        = false ∧
      ((validateUrlAgainstAllowlist "https://evil.com/x"
          "^https://good\\.com/.*$").error.map (fun e => e.code)) =
        some AemErrorCode.ALLOWLIST_VIOLATION) := by
  refine ⟨?_, ?_, ?_, by decide, by decide⟩
  · intro htrim
    unfold validateUrlAgainstAllowlist
    simp [hurl, htrim]
  · intro hcomp htrim
    have hp : pattern ≠ "" := fun h => htrim (by rw [h]; rfl)
    unfold validateUrlAgainstAllowlist
    simp [hurl, htrim, hcomp, hp]
  · intro cp hcomp htrim
    have hp : pattern ≠ "" := fun h => htrim (by rw [h]; rfl)
    unfold validateUrlAgainstAllowlist
    constructor
    · by_cases htest : regexTest cp url
      · simp [hurl, htrim, hcomp, htest, hp]
      · simp [hurl, htrim, hcomp, htest, hp]
    · intro htest
      simp [hurl, htrim, hcomp, htest, hp]

/-- C3 witness: the amended statement applied at
`url = "https://evil.com/x"`, `pattern = "evil"`, with the pattern's
compiled form and non-empty trim discharged concretely. -/
theorem C3_witness :
    ((validateUrlAgainstAllowlist "https://evil.com/x" "evil").valid =
        regexTest evilCompiled "https://evil.com/x") ∧
      (validateUrlAgainstAllowlist "https://evil.com/x"
          "^https://good\\.com/.*$").valid = false ∧
      regexTest evilCompiled "https://evil.com/x" = true := by
  have h := C3_allowlist_validation "https://evil.com/x" "evil" (by decide)
  exact ⟨(h.2.2.1 evilCompiled (by decide) (by decide)).1, h.2.2.2.1, by decide⟩

/-- C4: with `dryRun = true`, neither a replication batch, nor a cache-purge
batch, nor a package upload issues any network call (the call trace is
empty), every per-item result has `requested = false`, and the package
output reports `uploaded = false`, `installed = false`. -/
theorem C4_dry_run_no_network (oracle oracle2 : String → HttpOutcome)
    (paths urls : List String) (action : ReplicationAction) (batchSize : Nat)
    (throttleMs : ℚ) (method : PurgeMethod) (allowlistRegex : String)
    (uploadOracle : Unit → PkgOutcome) (installOracle : String → PkgOutcome)
    (packageName : String) (install : Bool) :
    ((performReplication oracle paths action batchSize throttleMs true).2 = [] ∧
      ∀ r ∈ (performReplication oracle paths action batchSize throttleMs true).1.results,
        r.requested = false) ∧
    ((runCachePurge oracle2 method allowlistRegex true urls).2 = [] ∧
      ∀ r ∈ (runCachePurge oracle2 method allowlistRegex true urls).1.results,
        r.requested = false) ∧
    ((uploadPackage uploadOracle installOracle packageName install true).2 = [] ∧
      (uploadPackage uploadOracle installOracle packageName install true).1.uploaded = false ∧
      (uploadPackage uploadOracle installOracle packageName install true).1.installed = false) := by
  refine ⟨⟨?_, ?_⟩, ⟨?_, ?_⟩, rfl, rfl, rfl⟩
  · show (processBatches oracle (dedupFirst [] paths) action batchSize throttleMs true []).2.1 = []
    rw [processBatches_eq_runItems]
    exact (runItems_dryRun oracle action (dedupFirst [] paths) []).1
  · intro r hr
    rw [performReplication_results] at hr
    rcases List.mem_map.mp hr with ⟨p, _, rfl⟩
    exact (replicateSinglePath_dryRun oracle p action).2
  · show (purgeLoop oracle2 method allowlistRegex true urls []).2 = []
    exact (purgeLoop_dryRun oracle2 method allowlistRegex urls []).1
  · intro r hr
    exact (purgeLoop_dryRun oracle2 method allowlistRegex urls []).2 r hr

/-- C4 witness: the dry-run statement at concrete inputs, with the traces and
flags evaluated. -/
theorem C4_witness :
    (((performReplication (fun _ => HttpOutcome.success 200 none) ["/content/a"]
          ReplicationAction.activate 10 100 true).2 = [] ∧
      ∀ r ∈ (performReplication (fun _ => HttpOutcome.success 200 none) ["/content/a"]
          ReplicationAction.activate 10 100 true).1.results, r.requested = false) ∧
    ((runCachePurge (fun _ => HttpOutcome.success 200 none) PurgeMethod.PURGE "" true
          ["https://a.example.com/x"]).2 = [] ∧
      ∀ r ∈ (runCachePurge (fun _ => HttpOutcome.success 200 none) PurgeMethod.PURGE "" true
          ["https://a.example.com/x"]).1.results, r.requested = false) ∧
    ((uploadPackage (fun _ => PkgOutcome.resp 200 (PkgBody.markup "ok"))
          (fun _ => PkgOutcome.resp 200 (PkgBody.markup "ok")) "demo" true true).2 = [] ∧
      (uploadPackage (fun _ => PkgOutcome.resp 200 (PkgBody.markup "ok"))
          (fun _ => PkgOutcome.resp 200 (PkgBody.markup "ok")) "demo" true true).1.uploaded
        = false ∧
      (uploadPackage (fun _ => PkgOutcome.resp 200 (PkgBody.markup "ok"))
          (fun _ => PkgOutcome.resp 200 (PkgBody.markup "ok")) "demo" true true).1.installed
        = false)) ∧
    (performReplication (fun _ => HttpOutcome.success 200 none) ["/content/a"]
        ReplicationAction.activate 10 100 true).1.results.map (fun r => r.requested)
      = [false] := by
  constructor
  · exact C4_dry_run_no_network (fun _ => HttpOutcome.success 200 none)
      (fun _ => HttpOutcome.success 200 none) ["/content/a"] ["https://a.example.com/x"]
      ReplicationAction.activate 10 100 PurgeMethod.PURGE ""
      (fun _ => PkgOutcome.resp 200 (PkgBody.markup "ok"))
      (fun _ => PkgOutcome.resp 200 (PkgBody.markup "ok")) "demo" true
  · decide

/-- C5 counterexample: with the default configuration, a non-retryable error
at attempt 0 < maxRetries = 3 already receives a no-retry decision, refuting
"no-retry if and only if attempt ≥ maxRetries". -/
theorem C5_counterexample :
    (shouldRetry { statusCode := none, code := none, message := none } 0
        DEFAULT_RETRY_CONFIG none 0).shouldRetry = false ∧
      0 < DEFAULT_RETRY_CONFIG.maxRetries := by
  exact ⟨by decide, by decide⟩

/-- C5 (amended): `shouldRetry` returns no-retry exactly when attempt ≥
maxRetries or the error is neither a retryable status code (present,
non-zero, in the configured set) nor a retryable low-level error code
(present, non-empty, in the configured set); in particular attempt ≥
maxRetries forces no-retry regardless of the error's classification. -/
theorem C5_shouldRetry_characterization (error : ErrorInfo) (attempt : Nat)
    (config : RetryConfig) (responseHeaders : Option (List (String × String)))
    (rand : ℚ) :
    ((shouldRetry error attempt config responseHeaders rand).shouldRetry = false ↔
      (config.maxRetries ≤ attempt ∨
        (errStatusRetryable error config = false ∧
          errCodeRetryable error config = false))) ∧
    (config.maxRetries ≤ attempt →
      (shouldRetry error attempt config responseHeaders rand).shouldRetry = false) := by
  unfold shouldRetry
  by_cases h1 : config.maxRetries ≤ attempt
  · simp [h1]
  · by_cases h2 : errStatusRetryable error config
    · simp [h1, h2]
    · by_cases h3 : errCodeRetryable error config
      · simp [h1, h2, h3]
      · simp [h1, h2, h3]

/-- C5 witness: a retryable 503 at attempt 5 ≥ maxRetries = 3 is still
no-retry, and the characterization holds there. -/
theorem C5_witness :
    ((shouldRetry { statusCode := some 503, code := none, message := none } 5
        DEFAULT_RETRY_CONFIG none 0).shouldRetry = false ↔
      (DEFAULT_RETRY_CONFIG.maxRetries ≤ 5 ∨
        (errStatusRetryable { statusCode := some 503, code := none, message := none }
            DEFAULT_RETRY_CONFIG = false ∧
          errCodeRetryable { statusCode := some 503, code := none, message := none }
            DEFAULT_RETRY_CONFIG = false))) ∧
    (shouldRetry { statusCode := some 503, code := none, message := none } 5
        DEFAULT_RETRY_CONFIG none 0).shouldRetry = false ∧
    errStatusRetryable { statusCode := some 503, code := none, message := none }
        DEFAULT_RETRY_CONFIG = true := by
  have h := C5_shouldRetry_characterization
    { statusCode := some 503, code := none, message := none } 5 DEFAULT_RETRY_CONFIG none 0
  exact ⟨h.1, h.2 (by decide), by decide⟩

/-- C6 counterexample: with a backoff multiplier of 1/2 (jitter disabled),
the computed delay strictly decreases from attempt 0 to attempt 1, refuting
non-decrease "for every retry configuration". -/
theorem C6_counterexample :
    calculateBackoffDelay 1 halvingConfig 0 < calculateBackoffDelay 0 halvingConfig 0 := by
  have h0 : calculateBackoffDelay 0 halvingConfig 0 = 1000 := by
    simp [calculateBackoffDelay, halvingConfig, DEFAULT_RETRY_CONFIG]
    norm_num [Int.floor_eq_iff]
  have h1 : calculateBackoffDelay 1 halvingConfig 0 = 500 := by
    simp [calculateBackoffDelay, halvingConfig, DEFAULT_RETRY_CONFIG]
    norm_num [Int.floor_eq_iff]
  rw [h0, h1]
  norm_num

/-- C6 (amended): with jitter disabled, the delay equals
`⌊min(initialDelayMs · backoffMultiplier ^ attempt, maxDelayMs)⌋` and never
exceeds `maxDelayMs`; for every configuration with a non-negative initial
delay and a multiplier ≥ 1 it is non-decreasing in the attempt number. -/
theorem C6_backoff_monotone_capped (config : RetryConfig) (rand : ℚ) (a b : Nat)
    (hjit : config.jitter = false) :
    (calculateBackoffDelay a config rand =
      Int.floor (min (config.initialDelayMs * config.backoffMultiplier ^ a)
        config.maxDelayMs)) ∧
    (calculateBackoffDelay a config rand : ℚ) ≤ config.maxDelayMs ∧
    (0 ≤ config.initialDelayMs → 1 ≤ config.backoffMultiplier → a ≤ b →
      calculateBackoffDelay a config rand ≤ calculateBackoffDelay b config rand) := by
  have hsimp : ∀ n : Nat, calculateBackoffDelay n config rand =
      Int.floor (min (config.initialDelayMs * config.backoffMultiplier ^ n)
        config.maxDelayMs) := by
    intro n
    unfold calculateBackoffDelay
    simp [hjit]
  refine ⟨hsimp a, ?_, ?_⟩
  · rw [hsimp a]
    calc ((Int.floor (min (config.initialDelayMs * config.backoffMultiplier ^ a)
          config.maxDelayMs) : ℚ))
        ≤ min (config.initialDelayMs * config.backoffMultiplier ^ a)
            config.maxDelayMs := Int.floor_le _
      _ ≤ config.maxDelayMs := min_le_right _ _
  · intro h0 h1 hab
    rw [hsimp a, hsimp b]
    apply Int.floor_le_floor
    apply min_le_min _ le_rfl
    exact mul_le_mul_of_nonneg_left (pow_le_pow_right₀ h1 hab) h0

/-- C6 witness: the amended statement at the default configuration with
jitter disabled, attempts 1 ≤ 2, with the delay evaluated. -/
theorem C6_witness :
    noJitterConfig.jitter = false ∧ (0 : ℚ) ≤ noJitterConfig.initialDelayMs ∧
      (1 : ℚ) ≤ noJitterConfig.backoffMultiplier ∧
      calculateBackoffDelay 1 noJitterConfig 0 ≤ calculateBackoffDelay 2 noJitterConfig 0 ∧
      (calculateBackoffDelay 1 noJitterConfig 0 : ℚ) ≤ noJitterConfig.maxDelayMs ∧
      calculateBackoffDelay 1 noJitterConfig 0 = 2000 := by
  have h := C6_backoff_monotone_capped noJitterConfig 0 1 2 rfl
  refine ⟨rfl, by norm_num [noJitterConfig, DEFAULT_RETRY_CONFIG],
    by norm_num [noJitterConfig, DEFAULT_RETRY_CONFIG],
    h.2.2 (by norm_num [noJitterConfig, DEFAULT_RETRY_CONFIG])
      (by norm_num [noJitterConfig, DEFAULT_RETRY_CONFIG]) (by norm_num),
    h.2.1, ?_⟩
  rw [h.1]
  simp [noJitterConfig, DEFAULT_RETRY_CONFIG]
  norm_num [Int.floor_eq_iff]

/-- C7: evaluating `isSuccessResponse` at the failing input: the 2xx markup
body `"Error: Package installation failed"` contains the error keyword
`"Error"` and none of the success keywords, yet the function reports
success — the source ORs the negated error checks instead of conjoining
them.  A non-2xx status is still never reported as success (second
evaluation). -/
theorem C7_markup_success_heuristic_eval :
    isSuccessResponse (PkgBody.markup "Error: Package installation failed") 200 = true ∧
    strIncludes "Error: Package installation failed" "Error" = true ∧
    strIncludes "Error: Package installation failed" "success" = false ∧
    strIncludes "Error: Package installation failed" "Package uploaded" = false ∧
    strIncludes "Error: Package installation failed" "Package installed" = false ∧
    isSuccessResponse (PkgBody.markup "Error: Package installation failed") 404 = false := by
  exact ⟨by decide, by decide, by decide, by decide, by decide, by decide⟩

/-- C8: the request path treats a status ≥ 400 as an error (and only those);
the error carries the classified details — 401 the authentication-failed
code, 403 the forbidden code, 404 the not-found classification, every 5xx
the server/connection-failed code, any other ≥ 400 the generic failure
message — and the response body is redacted
(`redactErrorMessage(JSON.stringify(body))`) before being attached as the
error's diagnostic description. -/
theorem C8_error_classification (safeUrl body : String) (sc : Int) :
    (requestStatusCheck safeUrl { statusCode := sc, body := body } =
        Except.ok { statusCode := sc, body := body } ↔ sc < 400) ∧
    (400 ≤ sc →
      requestStatusCheck safeUrl { statusCode := sc, body := body } =
        Except.error
          { message := (getErrorDetails sc safeUrl body).message
            description := redactErrorMessage (jsonStringifyStr body)
            httpCode := toString sc
            statusCode := some sc }) ∧
    (getErrorDetails 401 safeUrl body).code = AemErrorCode.AUTHENTICATION_FAILED ∧
    (getErrorDetails 403 safeUrl body).code = AemErrorCode.FORBIDDEN ∧
    (getErrorDetails 404 safeUrl body).message =
      "Resource not found. Check the URL or path." ∧
    (∀ s : Int, 500 ≤ s → s < 600 →
      (getErrorDetails s safeUrl body).code = AemErrorCode.CONNECTION_FAILED) ∧
    (∀ s : Int, 400 ≤ s → s ≠ 401 → s ≠ 403 → s ≠ 404 → s ≠ 500 → s ≠ 502 →
      s ≠ 503 → s ≠ 504 →
      (getErrorDetails s safeUrl body).message =
        "Request failed with status " ++ toString s) := by
  refine ⟨?_, ?_, rfl, rfl, rfl, ?_, ?_⟩
  · unfold requestStatusCheck
    by_cases h : sc ≥ 400
    · rw [if_pos h]
      constructor
      · intro heq
        exact absurd heq (by simp)
      · intro hlt
        omega
    · rw [if_neg h]
      constructor
      · intro _
        omega
      · intro _
        rfl
  · intro h
    unfold requestStatusCheck
    rw [if_pos h]
    rfl
  · intro s h5 h6
    unfold getErrorDetails
    split_ifs <;> first | rfl | omega
  · intro s h400 h1 h3 h4 hx0 hx2 hx3 hx4
    unfold getErrorDetails
    split_ifs <;> first | rfl | omega

/-- C8 witness: the classification at a 503 response whose body embeds a
basic-auth credential, with the redacted description evaluated; 501 (not in
the explicit 5xx list) still classifies as connection-failed, and 418 gets
the generic failure message. -/
theorem C8_witness :
    requestStatusCheck "https://h/x" { statusCode := 503, body := "Basic dXNlcg==" } =
      Except.error
        { message := "Server error (503). The AEM instance may be unavailable."
          description := "\"Basic [REDACTED]\""
          httpCode := "503"
          statusCode := some 503 } ∧
    (getErrorDetails 501 "https://h/x" "Basic dXNlcg==").code =
      AemErrorCode.CONNECTION_FAILED ∧
    (getErrorDetails 418 "https://h/x" "Basic dXNlcg==").message =
      "Request failed with status 418" := by
  have h := C8_error_classification "https://h/x" "Basic dXNlcg==" 503
  refine ⟨?_, h.2.2.2.2.2.1 501 (by decide) (by decide),
    h.2.2.2.2.2.2 418 (by decide) (by decide) (by decide) (by decide) (by decide)
      (by decide) (by decide) (by decide)⟩
  rw [h.2.1 (by decide)]
  congr 1

/-- C9: a throwing per-item action never propagates out of a batched
operation: the engines return one result per processed item for every
oracle (so later items are still processed), and the throwing item's result
is the failed one built in the catch block, with the error's message
captured in the result message. -/
theorem C9_per_item_error_containment (oracle oracle2 : String → HttpOutcome)
    (paths urls : List String) (action : ReplicationAction) (batchSize : Nat)
    (throttleMs : ℚ) (dryRun dryRun2 : Bool) (method : PurgeMethod)
    (allowlistRegex : String) (p u m m2 : String) (hc hc2 : Option Int)
    (hvalid : (validateAemPath p).valid = true)
    (hthrow : oracle p = HttpOutcome.failure m hc)
    (huvalid : (validateUrl u).valid = true)
    (huallow : (validateUrlAgainstAllowlist u allowlistRegex).valid = true)
    (huthrow : oracle2 u = HttpOutcome.failure m2 hc2) :
    ((performReplication oracle paths action batchSize throttleMs dryRun).1.results.length =
      (dedupFirst [] paths).length) ∧
    ((runCachePurge oracle2 method allowlistRegex dryRun2 urls).1.results.length =
      urls.length) ∧
    ((replicateSinglePath oracle p action false).1 =
      { path := p, action := action, requested := true, ok := false
        statusCode := hc.getD 500, message := "Replication failed: " ++ m
        durationMs := 0, timestamp := modelTimestamp }) ∧
    ((purgeOneUrl oracle2 method allowlistRegex false u).1 =
      { url := u, method := method, requested := true, ok := false, statusCode := 0
        message := "Request failed: " ++ m2, timestamp := modelTimestamp }) := by
  refine ⟨?_, ?_, ?_, ?_⟩
  · rw [performReplication_results]
    simp
  · show (purgeLoop oracle2 method allowlistRegex dryRun2 urls []).1.length = urls.length
    exact purgeLoop_length oracle2 method allowlistRegex dryRun2 urls []
  · unfold replicateSinglePath
    simp [hvalid, hthrow]
  · unfold purgeOneUrl
    simp [huvalid, huallow, huthrow]

/-- C9 witness: a replication whose every call throws still returns one
result per distinct path, and the thrown errors appear as failed results
with the messages captured. -/
theorem C9_witness :
    ((performReplication (fun _ => HttpOutcome.failure "socket hang up" (some 502))
        ["/content/a", "/content/b"] ReplicationAction.activate 10 100 false).1.results.length =
      (dedupFirst [] ["/content/a", "/content/b"]).length) ∧
    ((runCachePurge (fun _ => HttpOutcome.failure "fetch failed" none) PurgeMethod.PURGE ""
        false ["https://a.example.com/x"]).1.results.length = 1) ∧
    ((replicateSinglePath (fun _ => HttpOutcome.failure "socket hang up" (some 502))
        "/content/a" ReplicationAction.activate false).1 =
      { path := "/content/a", action := ReplicationAction.activate, requested := true
        ok := false, statusCode := (some (502 : Int)).getD 500
        message := "Replication failed: " ++ "socket hang up"
        durationMs := 0, timestamp := modelTimestamp }) ∧
    ((purgeOneUrl (fun _ => HttpOutcome.failure "fetch failed" none) PurgeMethod.PURGE ""
        false "https://a.example.com/x").1 =
      { url := "https://a.example.com/x", method := PurgeMethod.PURGE, requested := true
        ok := false, statusCode := 0
        message := "Request failed: " ++ "fetch failed", timestamp := modelTimestamp }) :=
  C9_per_item_error_containment
    (fun _ => HttpOutcome.failure "socket hang up" (some 502))
    (fun _ => HttpOutcome.failure "fetch failed" none)
    ["/content/a", "/content/b"] ["https://a.example.com/x"]
    ReplicationAction.activate 10 100 false false PurgeMethod.PURGE ""
    "/content/a" "https://a.example.com/x" "socket hang up" "fetch failed"
    (some 502) none (by decide) rfl (by decide) (by decide) rfl

/-- C10: the duplicate-skip check of the cache-purge loop runs before URL
and allowlist validation: when an invalid or allowlist-rejected URL occurs
twice, the first occurrence yields a failed result (ok = false, requested =
false, status 400 or 403) while the duplicate yields a skip result with
ok = true, requested = false, status 200 — and that duplicate is counted in
`successCount`. -/
theorem C10_duplicate_skip_precedes_validation (oracle : String → HttpOutcome)
    (method : PurgeMethod) (allowlistRegex : String) (dryRun : Bool)
    (urls : List String) (u : String) (hcount : urls.count u = 2)
    (hbad : (validateUrl u).valid = false ∨
      ((validateUrl u).valid = true ∧
        (validateUrlAgainstAllowlist u allowlistRegex).valid = false)) :
    ((runCachePurge oracle method allowlistRegex dryRun urls).1.results.filter
        (fun r => r.url == u) =
      [(purgeOneUrl oracle method allowlistRegex dryRun u).1,
       purgeSkipResult u method]) ∧
    (purgeOneUrl oracle method allowlistRegex dryRun u).1.ok = false ∧
    (purgeOneUrl oracle method allowlistRegex dryRun u).1.requested = false ∧
    ((purgeOneUrl oracle method allowlistRegex dryRun u).1.statusCode = 400 ∨
      (purgeOneUrl oracle method allowlistRegex dryRun u).1.statusCode = 403) ∧
    (purgeSkipResult u method).ok = true ∧
    (purgeSkipResult u method).requested = false ∧
    (purgeSkipResult u method).statusCode = 200 ∧
    1 ≤ (runCachePurge oracle method allowlistRegex dryRun urls).1.successCount := by
  have hfilter : ((runCachePurge oracle method allowlistRegex dryRun urls).1.results.filter
      (fun r => r.url == u)) =
      [(purgeOneUrl oracle method allowlistRegex dryRun u).1, purgeSkipResult u method] := by
    show ((purgeLoop oracle method allowlistRegex dryRun urls []).1.filter
        (fun r => r.url == u)) = _
    rw [purgeLoop_filter_eq]
    simp [hcount]
  have hone : (purgeOneUrl oracle method allowlistRegex dryRun u).1.ok = false ∧
      (purgeOneUrl oracle method allowlistRegex dryRun u).1.requested = false ∧
      ((purgeOneUrl oracle method allowlistRegex dryRun u).1.statusCode = 400 ∨
        (purgeOneUrl oracle method allowlistRegex dryRun u).1.statusCode = 403) := by
    rcases hbad with hinv | ⟨hval, hallow⟩
    · unfold purgeOneUrl
      simp [hinv]
    · unfold purgeOneUrl
      simp [hval, hallow]
  have hmem : purgeSkipResult u method ∈
      (runCachePurge oracle method allowlistRegex dryRun urls).1.results := by
    apply List.mem_of_mem_filter (p := fun r => r.url == u)
    rw [hfilter]
    simp
  have hok : purgeSkipResult u method ∈
      ((runCachePurge oracle method allowlistRegex dryRun urls).1.results.filter
        (fun r => r.ok)) :=
    List.mem_filter.mpr ⟨hmem, rfl⟩
  refine ⟨hfilter, hone.1, hone.2.1, hone.2.2, rfl, rfl, rfl, ?_⟩
  show 1 ≤ ((purgeLoop oracle method allowlistRegex dryRun urls []).1.filter
    (fun r => r.ok)).length
  exact List.length_pos.mpr (List.ne_nil_of_mem hok)

/-- C10 witness: the invalid URL `"notaurl"` listed twice: the first
occurrence fails with 400, the duplicate is skipped with 200/ok and counted
as a success. -/
theorem C10_witness :
    (((runCachePurge (fun _ => HttpOutcome.success 200 none) PurgeMethod.PURGE "" false
          ["notaurl", "notaurl"]).1.results.filter (fun r => r.url == "notaurl") =
      [(purgeOneUrl (fun _ => HttpOutcome.success 200 none) PurgeMethod.PURGE "" false
          "notaurl").1,
       purgeSkipResult "notaurl" PurgeMethod.PURGE]) ∧
    (purgeOneUrl (fun _ => HttpOutcome.success 200 none) PurgeMethod.PURGE "" false
        "notaurl").1.ok = false ∧
    (purgeOneUrl (fun _ => HttpOutcome.success 200 none) PurgeMethod.PURGE "" false
        "notaurl").1.requested = false ∧
    ((purgeOneUrl (fun _ => HttpOutcome.success 200 none) PurgeMethod.PURGE "" false
        "notaurl").1.statusCode = 400 ∨
      (purgeOneUrl (fun _ => HttpOutcome.success 200 none) PurgeMethod.PURGE "" false
          "notaurl").1.statusCode = 403) ∧
    (purgeSkipResult "notaurl" PurgeMethod.PURGE).ok = true ∧
    (purgeSkipResult "notaurl" PurgeMethod.PURGE).requested = false ∧
    (purgeSkipResult "notaurl" PurgeMethod.PURGE).statusCode = 200 ∧
    1 ≤ (runCachePurge (fun _ => HttpOutcome.success 200 none) PurgeMethod.PURGE "" false
        ["notaurl", "notaurl"]).1.successCount) ∧
    (runCachePurge (fun _ => HttpOutcome.success 200 none) PurgeMethod.PURGE "" false
        ["notaurl", "notaurl"]).1.successCount = 1 := by
  constructor
  · exact C10_duplicate_skip_precedes_validation (fun _ => HttpOutcome.success 200 none)
      PurgeMethod.PURGE "" false ["notaurl", "notaurl"] "notaurl" (by decide)
      (Or.inl (by decide))
  · decide

end AemOps
